import Mathlib

/-!
Shallow embedding of `git_helper.py`: the menu navigation and
input-handling state machine of the interactive git helper tool.

Modelling conventions:
* `curses` keyboard events become inductive key types; the blocking
  read loops become structural recursions over a finite list of keys.
* `run_command` shells out to git/gh; a handler only observes the pair
  `(combined output, return code)`, so each handler is a function of
  the `CommandResult` values its command invocations would return, and
  it returns the list of commands it issued together with the status
  lines it rendered (an `Event` trace) and its `Bool` completion value.
* Python integers are `Int`; Python `%` on a positive modulus agrees
  with `Int.emod`.  Python `str.strip` is `strStrip`, `str.lower`
  maps `Char.toLower` over the characters, and the substring test
  `needle in hay` is `strContains`.
* Screen layout, colors beyond the color-pair number, clearing and the
  header are presentation details; the rendered status messages that
  the handlers choose between are kept in the trace.
-/

set_option autoImplicit false

/-- Characterwise lowercasing, the model of Python `str.lower`. -/
def strLower (s : String) : String :=
  String.mk (s.data.map Char.toLower)

/-- The model of Python `str.strip`: remove leading and trailing
whitespace characters. -/
def stripChars (l : List Char) : List Char :=
  ((l.dropWhile Char.isWhitespace).reverse.dropWhile Char.isWhitespace).reverse

/-- `str.strip` on strings. -/
def strStrip (s : String) : String :=
  String.mk (stripChars s.data)

/-- Does the character list `hay` start with `nd`? -/
def leadMatch : List Char → List Char → Bool
  | [], _ => true
  | _ :: _, [] => false
  | a :: nd, b :: hay => a == b && leadMatch nd hay

/-- Does `nd` occur as a contiguous sublist of `hay`? -/
def subOccurs (nd : List Char) : List Char → Bool
  | [] => leadMatch nd []
  | b :: hay => leadMatch nd (b :: hay) || subOccurs nd hay

/-- The model of the Python substring test `nd in hay`. -/
def strContains (hay nd : String) : Bool :=
  subOccurs nd.data hay.data

/-- Result of one `run_command` invocation: combined stdout+stderr text
and the process return code. -/
structure CommandResult where
  out : String
  code : Int
deriving DecidableEq

/-- A keyboard event during line input collection (`get_user_input`).
Any key other than ESC, LEFT, Enter and backspace falls into the
`char` case, matching the final `else` branch of the source loop. -/
inductive InKey where
  | escape
  | leftArrow
  | enter
  | backspace
  | char (c : Char)
deriving DecidableEq

/-- One step of an element of the handler trace: either a command
issued through `run_command`, or a status line rendered with a given
curses color pair (0 stands for the default/bold attribute). -/
inductive Event where
  | cmd (s : String)
  | msg (text : String) (color : Nat)
deriving DecidableEq

/-- The commands issued in a trace, in order. -/
def cmdsOf : List Event → List String
  | [] => []
  | Event.cmd s :: t => s :: cmdsOf t
  | Event.msg _ _ :: t => cmdsOf t

/-- The character-read loop of `get_user_input`, carrying the buffer
`input_str` as a character list.  The outer `none` means the key list
ran out while the session was still open (the real loop blocks there);
`some none` is the Cancelled sentinel (Python `None`); `some (some s)`
is a committed, stripped line. -/
def input_loop : List Char → List InKey → Option (Option String)
  | _, [] => none
  | _, InKey.escape :: _ => some none
  | _, InKey.leftArrow :: _ => some none
  | buf, InKey.enter :: _ => some (some (strStrip (String.mk buf)))
  | buf, InKey.backspace :: ks =>
      input_loop (if buf.length > 0 then buf.dropLast else buf) ks
  | buf, InKey.char c :: ks => input_loop (buf ++ [c]) ks

/-- `get_user_input`, as a function of the key events it reads. -/
def get_user_input (ks : List InKey) : Option (Option String) :=
  input_loop [] ks

/-- `commit_and_push_all`: prompt for a commit message (a `none`
argument models the prompt returning Cancelled), default to
"auto commit" on empty input, stage, commit, then push regardless of
the commit outcome.  `res_commit` and `res_push` are the
`CommandResult` values of the commit and push invocations. -/
def commit_and_push_all (commit_msg : Option String)
    (res_commit res_push : CommandResult) : Bool × List Event :=
  match commit_msg with
  | none => (false, [])
  | some msg0 =>
    let m := if msg0 = "" then "auto commit" else msg0
    let commit_status :=
      if res_commit.code = 0 then
        [Event.msg "Changes committed." 4]
      else
        if strContains (strLower res_commit.out) "nothing to commit" then
          [Event.msg "Nothing to commit." 3]
        else
          [Event.msg "Error during commit:" 3, Event.msg res_commit.out 3]
    let push_status :=
      if res_push.code = 0 then
        [Event.msg "Push successful." 4]
      else
        [Event.msg "Error during push:" 3, Event.msg res_push.out 3]
    (true,
      [Event.msg "Staging all files..." 0, Event.cmd "git add -A",
       Event.msg "Committing changes..." 0,
       Event.cmd ("git commit -m \"" ++ m ++ "\"")]
      ++ commit_status
      ++ [Event.msg "Pushing changes..." 0, Event.cmd "git push"]
      ++ push_status)

/-- `pull_all`: no input, a single pull invocation. -/
def pull_all (res : CommandResult) : Bool × List Event :=
  let status :=
    if res.code = 0 then
      [Event.msg "Pull successful." 4]
    else
      [Event.msg "Error during pull:" 3, Event.msg res.out 3]
  (true, [Event.msg "Pulling changes from remote..." 0,
          Event.cmd "git pull"] ++ status)

/-- `create_issue`: a required title prompt (Cancelled or empty aborts)
and an optional body prompt.  The source tests the body only with
`if body:`, so a Cancelled body (`None`) and an empty body behave
identically: the issue command is issued without a body flag. -/
def create_issue (title body : Option String) (res : CommandResult) :
    Bool × List Event :=
  match title with
  | none => (false, [])
  | some t =>
    if t = "" then (false, [])
    else
      let cmd0 := "gh issue create --title \"" ++ t ++ "\""
      let cmd :=
        match body with
        | none => cmd0
        | some b => if b = "" then cmd0 else cmd0 ++ " --body \"" ++ b ++ "\""
      let status :=
        if res.code = 0 then
          [Event.msg "Issue created successfully." 4]
        else
          [Event.msg "Error creating issue:" 3, Event.msg res.out 3]
      (true, [Event.msg "Creating issue..." 0, Event.cmd cmd] ++ status)

/-- `create_github_repo`: stages and makes an initial commit before
any prompt, then prompts for the repository name (Cancelled or empty
aborts) and the visibility answer (Cancelled aborts), and finally
issues the `gh repo create` command. -/
def create_github_repo (is_git_repo : Bool) (res_commit : CommandResult)
    (repo_name vis_input : Option String) (res_gh : CommandResult) :
    Bool × List Event :=
  if is_git_repo = false then (false, [])
  else
    let pre :=
      [Event.msg "Staging all files..." 0, Event.cmd "git add -A",
       Event.msg "Creating initial commit..." 0,
       Event.cmd "git commit -m \x27Initial commit\x27"]
    let commit_status :=
      if res_commit.code ≠ 0 then
        if strContains (strLower res_commit.out) "nothing to commit" then
          [Event.msg "Nothing to commit, proceeding..." 3]
        else
          [Event.msg "Error during commit:" 3, Event.msg res_commit.out 3]
      else
        [Event.msg "Initial commit created." 4]
    match repo_name with
    | none => (false, pre ++ commit_status)
    | some rn =>
      if rn = "" then (false, pre ++ commit_status)
      else
        match vis_input with
        | none => (false, pre ++ commit_status)
        | some v =>
          let visibility :=
            if strLower (strStrip v) = "y" then "--private" else "--public"
          let gh_cmd := "gh repo create " ++ rn ++ " " ++ visibility
            ++ " --source=. --remote=origin --push --confirm"
          let gh_status :=
            if res_gh.code = 0 then
              [Event.msg "GitHub repository created and pushed successfully." 4]
            else
              [Event.msg "Error creating GitHub repository:" 3,
               Event.msg res_gh.out 3]
          (true,
            pre ++ commit_status
            ++ [Event.msg ("Creating GitHub repository \x27" ++ rn
                  ++ "\x27 as " ++ visibility.drop 2 ++ "...") 0,
                Event.cmd gh_cmd]
            ++ gh_status)

/-- `add_files`: an optional pattern prompt; Cancelled aborts, empty
defaults to staging everything. -/
def add_files (pattern : Option String) (res : CommandResult) :
    Bool × List Event :=
  match pattern with
  | none => (false, [])
  | some p =>
    let cmd := if p = "" then "git add -A" else "git add " ++ p
    let status :=
      if res.code = 0 then
        [Event.msg "Files added successfully." 4]
      else
        [Event.msg "Error adding files:" 3, Event.msg res.out 3]
    (true, [Event.cmd cmd] ++ status)

/-- `commit_changes`: like `commit_and_push_all` without the push. -/
def commit_changes (commit_msg : Option String)
    (res_commit : CommandResult) : Bool × List Event :=
  match commit_msg with
  | none => (false, [])
  | some msg0 =>
    let m := if msg0 = "" then "auto commit" else msg0
    let commit_status :=
      if res_commit.code = 0 then
        [Event.msg "Changes committed." 4]
      else
        if strContains (strLower res_commit.out) "nothing to commit" then
          [Event.msg "Nothing to commit." 3]
        else
          [Event.msg "Error during commit:" 3, Event.msg res_commit.out 3]
    (true,
      [Event.msg "Staging all files..." 0, Event.cmd "git add -A",
       Event.msg "Committing changes..." 0,
       Event.cmd ("git commit -m \"" ++ m ++ "\"")]
      ++ commit_status)

/-- The option labels of `main_menu`. -/
def menu_options : List String :=
  ["Commit & Push all", "Pull all", "Create Issue", "Advanced menu"]

/-- The option labels of `advanced_menu`. -/
def adv_options : List String :=
  ["Create GitHub Repository", "Add Files", "Commit Changes",
   "Push to Remote", "Pull from Remote", "Git Status", "Create Issue",
   "View Log", "Show Diff", "Back to Main Menu"]

/-- The completion value each main-menu action handler would report
when invoked; the menus only observe this `Bool`. -/
structure MainHandlers where
  commit_and_push_all : Bool
  pull_all : Bool
  create_issue : Bool
deriving DecidableEq

/-- The completion value each advanced-menu action handler would
report when invoked. -/
structure AdvHandlers where
  create_github_repo : Bool
  add_files : Bool
  commit_changes : Bool
  push_repo : Bool
  pull_repo : Bool
  git_status : Bool
  create_issue : Bool
  view_log : Bool
  show_diff : Bool
deriving DecidableEq

/-- A keyboard event in a menu loop.  `other` stands for any key the
loops ignore. -/
inductive Key where
  | up
  | down
  | enter
  | right
  | escape
  | left
  | other (code : Nat)
deriving DecidableEq

/-- The joint state of the two nested menu loops: inside `main_menu`
with its `current_row`, inside `advanced_menu` (remembering the main
loop's suspended `current_row` and carrying the advanced loop's own
row), or terminated. -/
inductive UIState where
  | mainM (row : Int)
  | advM (main_row : Int) (row : Int)
  | exited
deriving DecidableEq

/-- The Enter/Right branch of `main_menu`: dispatch on the selected
label.  Selecting "Advanced menu" suspends the main loop and enters
the advanced loop at row 0; any other handler completion `true` resets
`current_row` to 0, completion `false` leaves it unchanged. -/
def main_select (h : MainHandlers) (current_row : Int) : UIState :=
  let selected := menu_options.getD current_row.toNat ""
  if selected = "Advanced menu" then UIState.advM current_row 0
  else
    let result :=
      if selected = "Commit & Push all" then h.commit_and_push_all
      else if selected = "Pull all" then h.pull_all
      else if selected = "Create Issue" then h.create_issue
      else false
    UIState.mainM (if result then 0 else current_row)

/-- The Enter/Right branch of `advanced_menu`.  "Back to Main Menu"
breaks out of the advanced loop; back in `main_menu` the submenu-entry
branch then sets `result = True`, so the main row becomes 0. -/
def adv_select (ah : AdvHandlers) (main_row current_row : Int) : UIState :=
  let selected := adv_options.getD current_row.toNat ""
  if selected = "Back to Main Menu" then UIState.mainM 0
  else
    let result :=
      if selected = "Create GitHub Repository" then ah.create_github_repo
      else if selected = "Add Files" then ah.add_files
      else if selected = "Commit Changes" then ah.commit_changes
      else if selected = "Push to Remote" then ah.push_repo
      else if selected = "Pull from Remote" then ah.pull_repo
      else if selected = "Git Status" then ah.git_status
      else if selected = "Create Issue" then ah.create_issue
      else if selected = "View Log" then ah.view_log
      else if selected = "Show Diff" then ah.show_diff
      else false
    UIState.advM main_row (if result then 0 else current_row)

/-- One key event of the nested menu loops.  ESC/LEFT exits the
program from the main menu; from the advanced menu it breaks back into
`main_menu`, where the pending `result = True` of the submenu-entry
branch resets the main row to 0. -/
def ui_step (h : MainHandlers) (ah : AdvHandlers) (s : UIState)
    (key : Key) : UIState :=
  match s with
  | UIState.exited => UIState.exited
  | UIState.mainM current_row =>
    match key with
    | Key.escape => UIState.exited
    | Key.left => UIState.exited
    | Key.up =>
        UIState.mainM ((current_row - 1) % (menu_options.length : Int))
    | Key.down =>
        UIState.mainM ((current_row + 1) % (menu_options.length : Int))
    | Key.enter => main_select h current_row
    | Key.right => main_select h current_row
    | Key.other _ => UIState.mainM current_row
  | UIState.advM main_row current_row =>
    match key with
    | Key.escape => UIState.mainM 0
    | Key.left => UIState.mainM 0
    | Key.up =>
        UIState.advM main_row
          ((current_row - 1) % (adv_options.length : Int))
    | Key.down =>
        UIState.advM main_row
          ((current_row + 1) % (adv_options.length : Int))
    | Key.enter => adv_select ah main_row current_row
    | Key.right => adv_select ah main_row current_row
    | Key.other _ => UIState.advM main_row current_row

/-- Running the menu state machine over a list of key events. -/
def ui_run (h : MainHandlers) (ah : AdvHandlers) (s : UIState)
    (ks : List Key) : UIState :=
  ks.foldl (ui_step h ah) s

/-- A pure navigation event: the Up and Down arrow keys. -/
inductive NavKey where
  | up
  | down
deriving DecidableEq

/-- Inclusion of navigation events into menu key events. -/
def NavKey.toKey : NavKey → Key
  | NavKey.up => Key.up
  | NavKey.down => Key.down

/-- The selection delta of one navigation event. -/
def nav_delta : NavKey → Int
  | NavKey.up => -1
  | NavKey.down => 1

/-- The net selection delta of a navigation sequence: Down counts +1
and Up counts -1. -/
def net_delta (ks : List NavKey) : Int :=
  (ks.map nav_delta).sum

/-- The selection update both menu loops perform on an Up or Down key,
for a menu of `count` options. -/
def nav_step (count : Nat) (row : Int) : NavKey → Int
  | NavKey.up => (row - 1) % (count : Int)
  | NavKey.down => (row + 1) % (count : Int)

/-- Iterated selection updates over a navigation sequence. -/
def nav_run (count : Nat) (row : Int) (ks : List NavKey) : Int :=
  ks.foldl (nav_step count) row

lemma emod_absorb (a b n : Int) : (a % n + b) % n = (a + b) % n := by
  conv_lhs => rw [Int.add_emod]
  rw [Int.emod_emod_of_dvd a dvd_rfl, ← Int.add_emod]

lemma nav_step_eq (count : Nat) (row : Int) (k : NavKey) :
    nav_step count row k = (row + nav_delta k) % (count : Int) := by
  cases k <;> simp [nav_step, nav_delta, sub_eq_add_neg]

lemma net_delta_cons (k : NavKey) (ks : List NavKey) :
    net_delta (k :: ks) = nav_delta k + net_delta ks := by
  simp [net_delta]

lemma nav_run_formula (count : Nat) (hc : 1 ≤ count) :
    ∀ (ks : List NavKey) (row : Int), 0 ≤ row → row < (count : Int) →
      nav_run count row ks = (row + net_delta ks) % (count : Int) := by
  intro ks
  induction ks with
  | nil =>
    intro row h0 h1
    simp only [nav_run, List.foldl, net_delta, List.map, List.sum_nil,
      add_zero]
    exact (Int.emod_eq_of_lt h0 h1).symm
  | cons k ks ih =>
    intro row h0 h1
    have hpos : (0 : Int) < (count : Int) := by exact_mod_cast hc
    have hne : ((count : Int)) ≠ 0 := ne_of_gt hpos
    have hstep : nav_run count row (k :: ks)
        = nav_run count (nav_step count row k) ks := rfl
    rw [hstep, nav_step_eq,
      ih _ (Int.emod_nonneg _ hne) (Int.emod_lt_of_pos _ hpos),
      emod_absorb, net_delta_cons, add_assoc]

lemma ui_run_main_nav (h : MainHandlers) (ah : AdvHandlers) :
    ∀ (ks : List NavKey) (row : Int),
      ui_run h ah (UIState.mainM row) (ks.map NavKey.toKey)
        = UIState.mainM (nav_run menu_options.length row ks) := by
  intro ks
  induction ks with
  | nil => intro row; rfl
  | cons k ks ih =>
    intro row
    have h1 : ui_step h ah (UIState.mainM row) k.toKey
        = UIState.mainM (nav_step menu_options.length row k) := by
      cases k <;> rfl
    show ui_run h ah (ui_step h ah (UIState.mainM row) k.toKey)
        (ks.map NavKey.toKey) = _
    rw [h1]
    exact ih _

lemma ui_run_adv_nav (h : MainHandlers) (ah : AdvHandlers) :
    ∀ (ks : List NavKey) (m row : Int),
      ui_run h ah (UIState.advM m row) (ks.map NavKey.toKey)
        = UIState.advM m (nav_run adv_options.length row ks) := by
  intro ks
  induction ks with
  | nil => intro m row; rfl
  | cons k ks ih =>
    intro m row
    have h1 : ui_step h ah (UIState.advM m row) k.toKey
        = UIState.advM m (nav_step adv_options.length row k) := by
      cases k <;> rfl
    show ui_run h ah (ui_step h ah (UIState.advM m row) k.toKey)
        (ks.map NavKey.toKey) = _
    rw [h1]
    exact ih _ _

/-- C1: for every sequence of Up/Down key events in either menu, with
option count at least 1 and a valid initial index, the selected index
after the sequence equals `(initial + net_delta) mod option_count`,
where Down counts +1 and Up counts -1, and the index stays in
`[0, option_count)`.  The second conjunct ties the generic update to
the two concrete menu loops (4 main options, 10 advanced options). -/
theorem claim_C1 (count : Nat) (hc : 1 ≤ count) (row : Int)
    (h0 : 0 ≤ row) (h1 : row < (count : Int)) (ks : List NavKey) :
    (nav_run count row ks = (row + net_delta ks) % (count : Int)
      ∧ 0 ≤ nav_run count row ks ∧ nav_run count row ks < (count : Int))
    ∧ ∀ (h : MainHandlers) (ah : AdvHandlers) (r m : Int)
        (ns : List NavKey),
        ui_run h ah (UIState.mainM r) (ns.map NavKey.toKey)
            = UIState.mainM (nav_run menu_options.length r ns)
          ∧ ui_run h ah (UIState.advM m r) (ns.map NavKey.toKey)
            = UIState.advM m (nav_run adv_options.length r ns) := by
  have hpos : (0 : Int) < (count : Int) := by exact_mod_cast hc
  have hne : ((count : Int)) ≠ 0 := ne_of_gt hpos
  have hf := nav_run_formula count hc ks row h0 h1
  refine ⟨⟨hf, ?_, ?_⟩, ?_⟩
  · rw [hf]; exact Int.emod_nonneg _ hne
  · rw [hf]; exact Int.emod_lt_of_pos _ hpos
  · intro h ah r m ns
    exact ⟨ui_run_main_nav h ah ns r, ui_run_adv_nav h ah ns m r⟩

theorem claim_C1_witness :
    nav_run 4 0 [NavKey.down, NavKey.down, NavKey.up]
      = ((0 : Int) + net_delta [NavKey.down, NavKey.down, NavKey.up])
          % ((4 : Nat) : Int) :=
  ((claim_C1 4 (by decide) 0 (by decide) (by decide)
      [NavKey.down, NavKey.down, NavKey.up]).1).1

/-- C2 counterexample: start `main_menu` at row 3, press Enter on
"Advanced menu" and then Escape inside `advanced_menu`.  Control does
return to the main menu, but because the submenu-entry branch sets
`result = True` after `advanced_menu` returns, the main row is reset
to 0 instead of being left at 3: the claim that the selected index is
unchanged is false. -/
theorem claim_C2_counterexample :
    ui_run ⟨true, true, true⟩
        ⟨true, true, true, true, true, true, true, true, true⟩
        (UIState.mainM 3) [Key.enter, Key.escape] = UIState.mainM 0
    ∧ UIState.mainM (0 : Int) ≠ UIState.mainM 3 := by
  refine ⟨rfl, ?_⟩
  decide

/-- C2 amended: pressing Escape/Left in `advanced_menu` always returns
control to `main_menu`, but the submenu-entry action is treated as a
completed action (`result = True`), so the main selected index is
reset to 0 rather than left unchanged; an ordinary handler resets the
index to 0 exactly when it reports completed, leaving it unchanged when
it reports not completed. -/
theorem claim_C2_amended (h : MainHandlers) (ah : AdvHandlers)
    (m r : Int) :
    ui_step h ah (UIState.advM m r) Key.escape = UIState.mainM 0
    ∧ ui_step h ah (UIState.advM m r) Key.left = UIState.mainM 0
    ∧ ui_step h ah (UIState.mainM 3) Key.enter = UIState.advM 3 0
    ∧ ui_run h ah (UIState.mainM 3) [Key.enter, Key.escape]
        = UIState.mainM 0
    ∧ ui_step h ah (UIState.mainM 1) Key.enter
        = UIState.mainM (if h.pull_all then 0 else 1) := by
  exact ⟨rfl, rfl, rfl, rfl, rfl⟩

lemma cmdsOf_append (a b : List Event) :
    cmdsOf (a ++ b) = cmdsOf a ++ cmdsOf b := by
  induction a with
  | nil => rfl
  | cons e t ih => cases e <;> simp [cmdsOf, ih]

/-- C3 counterexample: with the working directory a git repository, a
Cancelled repository-name prompt does make the handler abort and
report not completed, but the claim that no command at all is issued
is false: the stage-all command (and the initial commit) have already
been issued before the prompt. -/
theorem claim_C3_counterexample :
    (create_github_repo true ⟨"", 1⟩ none none ⟨"", 0⟩).1 = false
    ∧ Event.cmd "git add -A"
        ∈ (create_github_repo true ⟨"", 1⟩ none none ⟨"", 0⟩).2 := by
  refine ⟨rfl, ?_⟩
  decide

/-- C3 amended: if the repository-name prompt or the visibility prompt
of `create_github_repo` returns Cancelled, the handler aborts
immediately and reports not completed without issuing any further
command — the hosted-repo creation command is never issued — but the
stage-all and initial-commit commands have already been issued before
the prompts. -/
theorem claim_C3_amended (res_commit res_gh : CommandResult)
    (vis : Option String) (rn : String) (hrn : rn ≠ "") :
    ((create_github_repo true res_commit none vis res_gh).1 = false
      ∧ cmdsOf (create_github_repo true res_commit none vis res_gh).2
          = ["git add -A", "git commit -m \x27Initial commit\x27"])
    ∧ ((create_github_repo true res_commit (some rn) none res_gh).1
          = false
      ∧ cmdsOf (create_github_repo true res_commit (some rn) none
            res_gh).2
          = ["git add -A", "git commit -m \x27Initial commit\x27"]) := by
  by_cases h0 : res_commit.code = 0 <;>
    by_cases h1 : strContains (strLower res_commit.out)
        "nothing to commit" = true <;>
    simp [create_github_repo, h0, h1, hrn, cmdsOf, cmdsOf_append]

theorem claim_C3_amended_witness :
    ((create_github_repo true ⟨"out", 1⟩ none (some "y") ⟨"", 0⟩).1
        = false
      ∧ cmdsOf (create_github_repo true ⟨"out", 1⟩ none (some "y")
            ⟨"", 0⟩).2
          = ["git add -A", "git commit -m \x27Initial commit\x27"])
    ∧ ((create_github_repo true ⟨"out", 1⟩ (some "myrepo") none
            ⟨"", 0⟩).1 = false
      ∧ cmdsOf (create_github_repo true ⟨"out", 1⟩ (some "myrepo") none
            ⟨"", 0⟩).2
          = ["git add -A", "git commit -m \x27Initial commit\x27"]) :=
  claim_C3_amended ⟨"out", 1⟩ ⟨"", 0⟩ (some "y") "myrepo" (by decide)

lemma leadMatch_map (f : Char → Char) :
    ∀ nd hay, leadMatch nd hay = true
      → leadMatch (nd.map f) (hay.map f) = true := by
  intro nd
  induction nd with
  | nil => intro hay _; rfl
  | cons a nd ih =>
    intro hay h
    cases hay with
    | nil => simp [leadMatch] at h
    | cons b hay =>
      simp only [leadMatch, Bool.and_eq_true, beq_iff_eq] at h
      simp only [List.map, leadMatch, Bool.and_eq_true, beq_iff_eq]
      exact ⟨congrArg f h.1, ih hay h.2⟩

lemma subOccurs_map (f : Char → Char) :
    ∀ nd hay, subOccurs nd hay = true
      → subOccurs (nd.map f) (hay.map f) = true := by
  intro nd hay
  induction hay with
  | nil => intro h; exact leadMatch_map f nd [] h
  | cons b hay ih =>
    intro h
    simp only [subOccurs, Bool.or_eq_true] at h
    simp only [List.map, subOccurs, Bool.or_eq_true]
    rcases h with h | h
    · exact Or.inl (leadMatch_map f nd (b :: hay) h)
    · exact Or.inr (ih h)

/-- If the needle is already lowercase, a substring occurrence in the
original text gives an occurrence in the lowercased text, which is
what the source checks. -/
lemma strContains_strLower (hay nd : String) (hnd : strLower nd = nd)
    (h : strContains hay nd = true) :
    strContains (strLower hay) nd = true := by
  have hd : nd.data.map Char.toLower = nd.data := congrArg String.data hnd
  have h2 := subOccurs_map Char.toLower nd.data hay.data h
  rw [hd] at h2
  exact h2

/-- C4: in `commit_and_push_all`, when the commit command exits
nonzero and its output contains "nothing to commit", the handler
renders the dedicated "Nothing to commit." notice in place of the
error status ("Error during commit:" followed by the raw output),
still issues the push command afterwards, and reports completed. -/
theorem claim_C4 (m : String) (res_commit res_push : CommandResult)
    (hfail : res_commit.code ≠ 0)
    (hsub : strContains res_commit.out "nothing to commit" = true) :
    (commit_and_push_all (some m) res_commit res_push).1 = true
    ∧ (commit_and_push_all (some m) res_commit res_push).2
        = [Event.msg "Staging all files..." 0, Event.cmd "git add -A",
           Event.msg "Committing changes..." 0,
           Event.cmd ("git commit -m \""
             ++ (if m = "" then "auto commit" else m) ++ "\""),
           Event.msg "Nothing to commit." 3,
           Event.msg "Pushing changes..." 0, Event.cmd "git push"]
          ++ (if res_push.code = 0 then [Event.msg "Push successful." 4]
              else [Event.msg "Error during push:" 3,
                    Event.msg res_push.out 3])
    ∧ Event.cmd "git push"
        ∈ (commit_and_push_all (some m) res_commit res_push).2 := by
  have hlow : strContains (strLower res_commit.out) "nothing to commit"
      = true :=
    strContains_strLower _ _ (by decide) hsub
  refine ⟨rfl, ?_, ?_⟩
  · simp [commit_and_push_all, hfail, hlow]
  · simp [commit_and_push_all, hfail, hlow]

theorem claim_C4_witness :
    Event.cmd "git push"
      ∈ (commit_and_push_all (some "x")
          ⟨"On branch main nothing to commit, working tree clean", 1⟩
          ⟨"", 0⟩).2 :=
  (claim_C4 "x"
      ⟨"On branch main nothing to commit, working tree clean", 1⟩
      ⟨"", 0⟩ (by decide) (by decide)).2.2

/-- C5 counterexample: in `create_issue`, a Cancelled body prompt does
not abort the calling action.  With title "t" and a Cancelled body the
handler still issues the issue-creation command and reports completed,
so the claim that a Cancelled input always aborts the entire calling
action with no subsequent command is false at the body prompt. -/
theorem claim_C5_counterexample :
    (create_issue (some "t") none ⟨"", 0⟩).1 = true
    ∧ Event.cmd "gh issue create --title \"t\""
        ∈ (create_issue (some "t") none ⟨"", 0⟩).2 := by
  refine ⟨rfl, ?_⟩
  decide

/-- C5 amended: a Cancelled required input (commit message in both
commit handlers, issue title, file pattern, repository name,
visibility answer) aborts the calling action: the handler reports not
completed and issues no further command (for `create_github_repo` the
stage and initial-commit commands precede the prompts).  The Create
Issue body prompt is optional: the source only tests `if body:`, so a
Cancelled body is treated exactly like an empty confirmed body and the
issue command is still issued. -/
theorem claim_C5_amended :
    (∀ rc rp : CommandResult,
      commit_and_push_all none rc rp = (false, []))
    ∧ (∀ rc : CommandResult, commit_changes none rc = (false, []))
    ∧ (∀ (b : Option String) (rc : CommandResult),
        create_issue none b rc = (false, []))
    ∧ (∀ rc : CommandResult, add_files none rc = (false, []))
    ∧ (∀ (rc rg : CommandResult) (v : Option String),
        (create_github_repo true rc none v rg).1 = false
        ∧ cmdsOf (create_github_repo true rc none v rg).2
            = ["git add -A", "git commit -m \x27Initial commit\x27"])
    ∧ (∀ (rc rg : CommandResult) (rn : String), rn ≠ "" →
        (create_github_repo true rc (some rn) none rg).1 = false
        ∧ cmdsOf (create_github_repo true rc (some rn) none rg).2
            = ["git add -A", "git commit -m \x27Initial commit\x27"])
    ∧ (∀ (t : String) (rc : CommandResult), t ≠ "" →
        create_issue (some t) none rc
            = create_issue (some t) (some "") rc
        ∧ (create_issue (some t) none rc).1 = true) := by
  refine ⟨fun rc rp => rfl, fun rc => rfl, fun b rc => rfl,
    fun rc => rfl, ?_, ?_, ?_⟩
  · intro rc rg v
    by_cases h0 : rc.code = 0 <;>
      by_cases h1 : strContains (strLower rc.out) "nothing to commit"
          = true <;>
      simp [create_github_repo, h0, h1, cmdsOf, cmdsOf_append]
  · intro rc rg rn hrn
    by_cases h0 : rc.code = 0 <;>
      by_cases h1 : strContains (strLower rc.out) "nothing to commit"
          = true <;>
      simp [create_github_repo, h0, h1, hrn, cmdsOf, cmdsOf_append]
  · intro t rc ht
    exact ⟨by simp [create_issue, ht], by simp [create_issue, ht]⟩

theorem claim_C5_amended_witness :
    (create_issue (some "t2") none ⟨"", 0⟩
        = create_issue (some "t2") (some "") ⟨"", 0⟩)
    ∧ (create_issue (some "t2") none ⟨"", 0⟩).1 = true :=
  claim_C5_amended.2.2.2.2.2.2 "t2" ⟨"", 0⟩ (by decide)

lemma input_loop_chars :
    ∀ (cs buf : List Char) (ks : List InKey),
      input_loop buf (cs.map InKey.char ++ ks)
        = input_loop (buf ++ cs) ks := by
  intro cs
  induction cs with
  | nil => intro buf ks; simp
  | cons c cs ih =>
    intro buf ks
    show input_loop (buf ++ [c]) (cs.map InKey.char ++ ks) = _
    rw [ih, List.append_assoc]
    rfl

/-- C6: in `get_user_input`, typed characters append to the buffer,
backspace removes the last buffered character, and Enter commits the
buffer with leading and trailing whitespace stripped; in particular
typing "abc", Backspace, Enter commits "ab". -/
theorem claim_C6 :
    (∀ cs : List Char,
      get_user_input (cs.map InKey.char ++ [InKey.enter])
        = some (some (strStrip (String.mk cs))))
    ∧ (∀ (cs : List Char) (c : Char),
      get_user_input ((cs ++ [c]).map InKey.char
          ++ [InKey.backspace, InKey.enter])
        = some (some (strStrip (String.mk cs))))
    ∧ get_user_input [InKey.char 'a', InKey.char 'b', InKey.char 'c',
        InKey.backspace, InKey.enter] = some (some "ab")
    ∧ get_user_input [InKey.char ' ', InKey.char 'a', InKey.char ' ',
        InKey.enter] = some (some "a") := by
  refine ⟨?_, ?_, by decide, by decide⟩
  · intro cs
    show input_loop [] (cs.map InKey.char ++ [InKey.enter]) = _
    rw [input_loop_chars]
    rfl
  · intro cs c
    show input_loop []
        ((cs ++ [c]).map InKey.char ++ [InKey.backspace, InKey.enter])
        = _
    rw [input_loop_chars, List.nil_append]
    show input_loop
        (if (cs ++ [c]).length > 0 then (cs ++ [c]).dropLast
          else cs ++ [c]) [InKey.enter] = _
    rw [if_pos (by simp), List.dropLast_concat]
    rfl

lemma input_loop_cancel :
    ∀ (ks : List InKey),
      (∀ k ∈ ks, k ≠ InKey.enter ∧ k ≠ InKey.escape
        ∧ k ≠ InKey.leftArrow) →
      ∀ (buf : List Char) (rest : List InKey),
        input_loop buf (ks ++ InKey.escape :: rest) = some none
        ∧ input_loop buf (ks ++ InKey.leftArrow :: rest) = some none := by
  intro ks
  induction ks with
  | nil => intro _ buf rest; exact ⟨rfl, rfl⟩
  | cons k ks ih =>
    intro hk buf rest
    have hk1 := hk k (List.mem_cons_self k ks)
    have hks : ∀ k ∈ ks, k ≠ InKey.enter ∧ k ≠ InKey.escape
        ∧ k ≠ InKey.leftArrow :=
      fun k hm => hk k (List.mem_cons_of_mem _ hm)
    cases k with
    | enter => exact absurd rfl hk1.1
    | escape => exact absurd rfl hk1.2.1
    | leftArrow => exact absurd rfl hk1.2.2
    | backspace => exact ih hks _ rest
    | char c => exact ih hks _ rest

/-- C7: in `get_user_input`, Escape (or the Left arrow) pressed after
any run of typed characters and backspaces immediately yields the
Cancelled sentinel, discarding everything typed so far — no partial
input is ever returned on cancellation. -/
theorem claim_C7 (ks : List InKey)
    (h : ∀ k ∈ ks, k ≠ InKey.enter ∧ k ≠ InKey.escape
      ∧ k ≠ InKey.leftArrow)
    (rest : List InKey) :
    get_user_input (ks ++ InKey.escape :: rest) = some none
    ∧ get_user_input (ks ++ InKey.leftArrow :: rest) = some none :=
  input_loop_cancel ks h [] rest

theorem claim_C7_witness :
    get_user_input [InKey.char 'a', InKey.char 'b', InKey.escape]
        = some none
    ∧ get_user_input [InKey.char 'a', InKey.char 'b', InKey.leftArrow]
        = some none :=
  claim_C7 [InKey.char 'a', InKey.char 'b'] (by decide) []

/-- C8: in both commit handlers, an empty confirmed commit-message
input makes the commit command be issued with the message
"auto commit"; the full command sequences are stage-commit-push and
stage-commit respectively. -/
theorem claim_C8 (rc rp : CommandResult) :
    cmdsOf (commit_and_push_all (some "") rc rp).2
      = ["git add -A", "git commit -m \"auto commit\"", "git push"]
    ∧ cmdsOf (commit_changes (some "") rc).2
      = ["git add -A", "git commit -m \"auto commit\""] := by
  by_cases h0 : rc.code = 0 <;>
    by_cases h1 : strContains (strLower rc.out) "nothing to commit"
        = true <;>
    by_cases h2 : rp.code = 0 <;>
    simp [commit_and_push_all, commit_changes, h0, h1, h2, cmdsOf,
      cmdsOf_append]

/-- C9: in `create_issue`, a Cancelled or empty confirmed title makes
the handler return not completed without issuing any command or
rendering anything. -/
theorem claim_C9 (body : Option String) (rc : CommandResult) :
    create_issue none body rc = (false, [])
    ∧ create_issue (some "") body rc = (false, []) :=
  ⟨rfl, rfl⟩

/-- C10: in `commit_and_push_all`, when the commit command fails with
a generic error (nonzero exit, output whose lowercasing does not
contain "nothing to commit"), the handler renders the error status but
still issues the push command right after the commit command and
reports completed. -/
theorem claim_C10 (m : String) (rc rp : CommandResult)
    (hfail : rc.code ≠ 0)
    (hgen : strContains (strLower rc.out) "nothing to commit"
      = false) :
    (commit_and_push_all (some m) rc rp).1 = true
    ∧ cmdsOf (commit_and_push_all (some m) rc rp).2
        = ["git add -A",
           "git commit -m \""
             ++ (if m = "" then "auto commit" else m) ++ "\"",
           "git push"]
    ∧ Event.msg "Error during commit:" 3
        ∈ (commit_and_push_all (some m) rc rp).2 := by
  refine ⟨rfl, ?_, ?_⟩
  · by_cases h2 : rp.code = 0 <;>
      simp [commit_and_push_all, hfail, hgen, h2, cmdsOf, cmdsOf_append]
  · simp [commit_and_push_all, hfail, hgen]

theorem claim_C10_witness :
    (commit_and_push_all (some "x") ⟨"fatal: unable to commit", 1⟩
        ⟨"", 0⟩).1 = true
    ∧ cmdsOf (commit_and_push_all (some "x")
          ⟨"fatal: unable to commit", 1⟩ ⟨"", 0⟩).2
        = ["git add -A", "git commit -m \"x\"", "git push"]
    ∧ Event.msg "Error during commit:" 3
        ∈ (commit_and_push_all (some "x") ⟨"fatal: unable to commit", 1⟩
            ⟨"", 0⟩).2 :=
  claim_C10 "x" ⟨"fatal: unable to commit", 1⟩ ⟨"", 0⟩ (by decide)
    (by decide)
